import Mathlib

/-!
Verification development for the SBS2 frontend client-side entity/activity
data model (`src/interfaces/Views.ts` and the listen protocol contract).

The repository's core is a typed contract layer: TypeScript interfaces for
entity views, aggregates, activity events, and the long-poll listen
query/response shapes.  Those type declarations are embedded below as Lean
structures (dates and TS `number` fields become `Int`; `Dictionary<T>`
becomes an association list).  Behaviour that the repository declares but
does not implement in the sources (permission evaluation, aggregate
folding, record decoding, the listen server) is modelled from the spec;
each such definition carries a doc comment starting `Modelled from the
spec:`.
-/

/-- Modelled from the spec: the `Vote` enum from the missing `API.ts`;
a closed 3-value set Bad, Okay, Great (spec section 6). -/
inductive Vote where
  | bad
  | okay
  | great
deriving DecidableEq, Repr

/-- Modelled from the spec: the `CRUD` action enum from the missing
`API.ts`; one of Create, Update, Delete (spec section 6). -/
inductive CRUD where
  | create
  | update
  | delete
deriving DecidableEq, Repr

/-- Modelled from the spec: the `EntityType` tag enum from the missing
`API.ts`.  The nine bundle kinds are listed in spec section 6; `watch` is
added for the modeled `IWatch` entity kind, which has no key in
`IChainedResponse`. -/
inductive EntityType where
  | user
  | content
  | category
  | comment
  | file
  | commentAggregate
  | activity
  | activityAggregate
  | vote
  | watch
deriving DecidableEq, Repr

/-- `IBase`: everything has an ID; the ID space is shared between all
items in the API. -/
structure IBase where
  id : Int
deriving DecidableEq, Repr

/-- `IView`: every view returned by the API except aggregates. -/
structure IView extends IBase where
  createDate : Int
deriving DecidableEq, Repr

/-- `IAggregate`: aggregated data (first/last post date, count). -/
structure IAggregate where
  firstPost : Option Int
  lastPost : Option Int
  count : Nat
deriving DecidableEq, Repr

/-- `ICommentAggregate`: aggregate plus the parent id and the users who
made the aggregated comments. -/
structure ICommentAggregate extends IAggregate, IBase where
  userIds : List Int
deriving DecidableEq, Repr

/-- `IActivityAggregate`: comment aggregate plus the last event ID folded
into the aggregate. -/
structure IActivityAggregate extends ICommentAggregate where
  lastId : Int
deriving DecidableEq, Repr

/-- `IEntity`: a view with edit tracking. -/
structure IEntity extends IView where
  editDate : Int
  createUserId : Int
  editUserId : Int
deriving DecidableEq, Repr

/-- `IControlledEntity`: an entity with permission-controlled access.
`permissions` maps user ids (0 = every user) to permission strings over
the letters C, R, U, D. -/
structure IControlledEntity extends IEntity where
  parentId : Int
  permissions : List (Int × String)
  myPerms : String
deriving DecidableEq, Repr

/-- `INamedEntity`: a controlled entity with a name (1-128 chars) and
free-form string key/value attributes. -/
structure INamedEntity extends IControlledEntity where
  name : String
  values : List (String × String)
deriving DecidableEq, Repr

/-- `IUser`: the public view of a user — a View (id, createDate) plus
username and avatar file id only. -/
structure IUser extends IView where
  username : String
  avatar : Int
deriving DecidableEq, Repr

/-- `IUserSelf`: the extended view of a user when viewed by themselves:
an Entity carrying the IUser fields plus email and the superuser flag. -/
structure IUserSelf extends IEntity where
  username : String
  avatar : Int
  email : String
  super : Bool
deriving DecidableEq, Repr

/-- `ICategory`: a named entity with a description and local supers. -/
structure ICategory extends INamedEntity where
  description : String
  localSupers : List Int
deriving DecidableEq, Repr

/-- The anonymous `about` block of `IContent`: comment/watch aggregates,
per-vote-value aggregates, current-user watch flag and vote. -/
structure IContentAbout where
  comments : IAggregate
  watches : IAggregate
  votes : Vote → IAggregate
  watching : Bool
  myVote : Option Vote

/-- `IContent`: the primary named entity, with a content body
(2-65536 chars), free-form type tag, keywords, and the about block. -/
structure IContent extends INamedEntity where
  content : String
  type : String
  keywords : List String
  about : IContentAbout

/-- `IComment`: an entity with a mandatory parent Content, a content body
(2-4096 chars) and a deleted flag. -/
structure IComment extends IEntity where
  parentId : Int
  content : String
  deleted : Bool
deriving DecidableEq, Repr

/-- `IFile`: a controlled entity with a file name and MIME type. -/
structure IFile extends IControlledEntity where
  name : String
  fileType : String
deriving DecidableEq, Repr

/-- `IVote`: a view recording a user's vote on a content; `vote` is
optional (absent = no vote). -/
structure IVote extends IView where
  userId : Int
  contentId : Int
  vote : Option Vote
deriving DecidableEq, Repr

/-- `IWatch`: a view recording a watch on a content. -/
structure IWatch extends IView where
  userId : Int
  contentId : Int
  lastNotificationId : Int
deriving DecidableEq, Repr

/-- `IEvent`: a site activity event (standalone, not a View).
`userId = -1` is the System sentinel. -/
structure IEvent where
  id : Int
  date : Int
  userId : Int
  contentId : Int
  type : EntityType
  contentType : String
  action : CRUD
  extra : String
deriving DecidableEq, Repr

/-- `IChainedResponse`: a heterogeneous response bundle, one ordered
record sequence per entity kind, keyed by the nine `EntityType` keys that
appear in the source type literal. -/
structure IChainedResponse where
  user : List IUser
  content : List IContent
  category : List ICategory
  comment : List IComment
  file : List IFile
  commentAggregate : List ICommentAggregate
  activity : List IEvent
  activityAggregate : List IActivityAggregate
  vote : List IVote

/-- `Partial<IChainedResponse>`: the same nine keys, each optional. -/
structure ChainedResponseOpt where
  user : Option (List IUser) := none
  content : Option (List IContent) := none
  category : Option (List ICategory) := none
  comment : Option (List IComment) := none
  file : Option (List IFile) := none
  commentAggregate : Option (List ICommentAggregate) := none
  activity : Option (List IEvent) := none
  activityAggregate : Option (List IActivityAggregate) := none
  vote : Option (List IVote) := none

/-- `IListenActionQuery`: the client's activity-poll intent — the
exclusive resume point `lastId`, per-chain statuses, and chains. -/
structure IListenActionQuery where
  lastId : Int
  statuses : List (String × String)
  chains : List String
deriving DecidableEq, Repr

/-- `IListenListenerQuery`: the client's presence-poll intent. -/
structure IListenListenerQuery where
  lastListeners : List (String × List (String × String))
  chains : List String
deriving DecidableEq, Repr

/-- `IListenChainResponse`: presence state, a partial heterogeneous
payload, the new resume token, and non-fatal warnings. -/
structure IListenChainResponse where
  listeners : List (String × List (String × String))
  chains : ChainedResponseOpt
  lastId : Int
  warnings : List String

/-- Modelled from the spec: permission evaluation (spec section 4.2) is
not implemented in the sources, only declared on `IControlledEntity`.
Look up the requesting user's id in the permissions map; if absent, fall
back to key `0` (default); if `0` is also absent, the effective
permission is empty (no access). -/
def effectivePermission (perms : List (Int × String)) (uid : Int) : String :=
  match List.lookup uid perms with
  | some s => s
  | none =>
    match List.lookup 0 perms with
    | some d => d
    | none => ""

/-- Membership of a letter in a permission string, treated as a set of
letters (spec section 6). -/
def permHas (s : String) (c : Char) : Bool :=
  s.toList.contains c

/-- Modelled from the spec: the capability check of spec section 4.2.  A
superuser is granted C, U, D unconditionally, while R (and every letter
for a non-superuser) follows the computed effective permission string,
treated as a set of letters. -/
def hasPermission (u : IUserSelf) (perms : List (Int × String)) (c : Char) : Bool :=
  (u.super && (c == 'C' || c == 'U' || c == 'D'))
    || permHas (effectivePermission perms u.id) c

/-- Modelled from the spec: the aggregate-folding consumer of activity
events is not in the sources.  Per spec section 4.3, event application
must be idempotent by event id; `IActivityAggregate.lastId` is "the
highest event ID folded into the aggregate", so an event whose id is not
above the high-water mark is skipped, and otherwise the rollup fields are
updated. -/
def applyEvent (a : IActivityAggregate) (e : IEvent) : IActivityAggregate :=
  if e.id ≤ a.lastId then a
  else
    { a with
      count := a.count + 1
      firstPost :=
        match a.firstPost with
        | none => some e.date
        | some d => some d
      lastPost := some e.date
      lastId := e.id
      userIds :=
        if e.userId ∈ a.userIds then a.userIds else a.userIds ++ [e.userId] }

/-- Folding a sequence of events into an activity aggregate. -/
def applyEvents (a : IActivityAggregate) (es : List IEvent) : IActivityAggregate :=
  es.foldl applyEvent a

/-- Modelled from the spec: the listen server (spec section 4.3) is not in
the sources.  The server holds an append-only event log and answers a
query whose `lastId` is the exclusive resume point with exactly the
events of id strictly greater than it. -/
def listenEvents (log : List IEvent) (lastId : Int) : List IEvent :=
  log.filter fun e => lastId < e.id

/-- Modelled from the spec: one listen poll.  The response carries the
payload events and the new resume token: the highest delivered event id,
or the query's own `lastId` when nothing new was delivered. -/
def respond (log : List IEvent) (q : IListenActionQuery) : IListenChainResponse :=
  let es := listenEvents log q.lastId
  { listeners := []
    chains := { activity := some es }
    lastId := es.foldl (fun m e => max m e.id) q.lastId
    warnings := [] }

/-- The activity payload of a listen chain response. -/
def IListenChainResponse.events (r : IListenChainResponse) : List IEvent :=
  r.chains.activity.getD []

/-- Modelled from the spec: a properly resumed listen session.  At each
poll the server log may have grown (one log per poll); each query after
the first supplies the previous response's `lastId` as its resume point.
Each step records the `lastId` supplied by the query and the response. -/
def sessionSteps (logs : List (List IEvent)) (q : IListenActionQuery) :
    List (Int × IListenChainResponse) :=
  match logs with
  | [] => []
  | log :: rest =>
    let r := respond log q
    (q.lastId, r) :: sessionSteps rest { q with lastId := r.lastId }

/-- Modelled from the spec: the wire value shape of the JSON-like records
returned by the remote API (spec section 6); the sources declare only the
decoded shapes. -/
inductive RawVal where
  | null
  | num (n : Int)
  | str (s : String)
  | boolVal (b : Bool)
  | arr (xs : List RawVal)
  | obj (fields : List (String × RawVal))

/-- Modelled from the spec: the error taxonomy of spec section 7 that the
decode layer reports. -/
inductive ErrKind where
  | decodeError
  | contractViolation
deriving DecidableEq, Repr

/-- Extract a required field; a missing field is a `DecodeError`. -/
def getField (fields : List (String × RawVal)) (k : String) :
    Except ErrKind RawVal :=
  match List.lookup k fields with
  | some v => Except.ok v
  | none => Except.error ErrKind.decodeError

/-- A raw value as an object, else `DecodeError`. -/
def asObj : RawVal → Except ErrKind (List (String × RawVal))
  | RawVal.obj fields => Except.ok fields
  | _ => Except.error ErrKind.decodeError

/-- A raw value as an integer, else `DecodeError`. -/
def asInt : RawVal → Except ErrKind Int
  | RawVal.num n => Except.ok n
  | _ => Except.error ErrKind.decodeError

/-- A raw value as a non-negative count, else `DecodeError`. -/
def asNat : RawVal → Except ErrKind Nat
  | RawVal.num n => if n < 0 then Except.error ErrKind.decodeError else Except.ok n.toNat
  | _ => Except.error ErrKind.decodeError

/-- A raw value as a string, else `DecodeError`. -/
def asStr : RawVal → Except ErrKind String
  | RawVal.str s => Except.ok s
  | _ => Except.error ErrKind.decodeError

/-- A raw value as a boolean, else `DecodeError`. -/
def asBool : RawVal → Except ErrKind Bool
  | RawVal.boolVal b => Except.ok b
  | _ => Except.error ErrKind.decodeError

/-- A raw value as an array, else `DecodeError`. -/
def asArr : RawVal → Except ErrKind (List RawVal)
  | RawVal.arr xs => Except.ok xs
  | _ => Except.error ErrKind.decodeError

/-- A raw value as a nullable timestamp, else `DecodeError`. -/
def asOptDate : RawVal → Except ErrKind (Option Int)
  | RawVal.null => Except.ok none
  | RawVal.num n => Except.ok (some n)
  | _ => Except.error ErrKind.decodeError

/-- Modelled from the spec: decode an aggregate record
`{firstPost, lastPost, count}` (spec section 3). -/
def decodeAggregate (v : RawVal) : Except ErrKind IAggregate := do
  let o ← asObj v
  let fp ← asOptDate (← getField o "firstPost")
  let lp ← asOptDate (← getField o "lastPost")
  let c ← asNat (← getField o "count")
  Except.ok { firstPost := fp, lastPost := lp, count := c }

/-- Encode a nullable timestamp back to the wire shape. -/
def encodeOptDate : Option Int → RawVal
  | none => RawVal.null
  | some d => RawVal.num d

/-- Modelled from the spec: encode an aggregate back to its wire shape,
the inverse direction of `decodeAggregate`. -/
def encodeAggregate (a : IAggregate) : RawVal :=
  RawVal.obj
    [("firstPost", encodeOptDate a.firstPost),
     ("lastPost", encodeOptDate a.lastPost),
     ("count", RawVal.num a.count)]

/-- The documented aggregate pairing invariant (spec section 3): null
timestamps exactly when `count = 0`. -/
def aggWF (a : IAggregate) : Prop :=
  (a.count = 0 → a.firstPost = none ∧ a.lastPost = none) ∧
  (0 < a.count → a.firstPost.isSome ∧ a.lastPost.isSome)

instance (a : IAggregate) : Decidable (aggWF a) := by
  unfold aggWF; infer_instance

/-- The aggregate an activity aggregate rolls up. -/
def IActivityAggregate.agg (a : IActivityAggregate) : IAggregate :=
  a.toIAggregate

/-- The empty aggregate: the state before any post was folded in. -/
def emptyAggregate : IAggregate :=
  { firstPost := none, lastPost := none, count := 0 }

/-- Modelled from the spec: a decoded record of some entity kind, the
tagged union of spec section 4.1. -/
inductive Item where
  | user (u : IUser)
  | content (c : IContent)
  | category (c : ICategory)
  | comment (c : IComment)
  | file (f : IFile)
  | commentAggregate (a : ICommentAggregate)
  | activity (e : IEvent)
  | activityAggregate (a : IActivityAggregate)
  | vote (v : IVote)
  | watch (w : IWatch)

/-- The entity-kind tag of a decoded record. -/
def Item.kind : Item → EntityType
  | Item.user _ => EntityType.user
  | Item.content _ => EntityType.content
  | Item.category _ => EntityType.category
  | Item.comment _ => EntityType.comment
  | Item.file _ => EntityType.file
  | Item.commentAggregate _ => EntityType.commentAggregate
  | Item.activity _ => EntityType.activity
  | Item.activityAggregate _ => EntityType.activityAggregate
  | Item.vote _ => EntityType.vote
  | Item.watch _ => EntityType.watch

/-- Modelled from the spec: parse a `Dictionary` key as a user id. -/
def parseUserIdKey (k : String) : Except ErrKind Int :=
  match k.toNat? with
  | some n => Except.ok (Int.ofNat n)
  | none => Except.error ErrKind.decodeError

/-- Modelled from the spec: decode a permissions `Dictionary` — user-id
keys mapping to permission strings. -/
def decodePermissions (v : RawVal) : Except ErrKind (List (Int × String)) := do
  let o ← asObj v
  o.mapM fun kv => do
    let n ← parseUserIdKey kv.1
    let s ← asStr kv.2
    Except.ok (n, s)

/-- Modelled from the spec: decode a string-to-string `Dictionary`. -/
def decodeValues (v : RawVal) : Except ErrKind (List (String × String)) := do
  let o ← asObj v
  o.mapM fun kv => do
    let s ← asStr kv.2
    Except.ok (kv.1, s)

/-- Modelled from the spec: decode a list of user ids. -/
def decodeIdList (v : RawVal) : Except ErrKind (List Int) := do
  let xs ← asArr v
  xs.mapM asInt

/-- Modelled from the spec: decode a list of strings. -/
def decodeStrList (v : RawVal) : Except ErrKind (List String) := do
  let xs ← asArr v
  xs.mapM asStr

/-- Modelled from the spec: a vote value on the wire (0 = Bad, 1 = Okay,
2 = Great; the exact numbering is an external-contract detail). -/
def decodeVoteVal : RawVal → Except ErrKind Vote
  | RawVal.num 0 => Except.ok Vote.bad
  | RawVal.num 1 => Except.ok Vote.okay
  | RawVal.num 2 => Except.ok Vote.great
  | _ => Except.error ErrKind.decodeError

/-- Modelled from the spec: a CRUD action on the wire (spec section 6). -/
def decodeCRUD : RawVal → Except ErrKind CRUD
  | RawVal.str "Create" => Except.ok CRUD.create
  | RawVal.str "Update" => Except.ok CRUD.update
  | RawVal.str "Delete" => Except.ok CRUD.delete
  | _ => Except.error ErrKind.decodeError

/-- Modelled from the spec: an entity-kind tag on the wire, in the order
of the `EntityType` members. -/
def decodeEntityType : RawVal → Except ErrKind EntityType
  | RawVal.num 0 => Except.ok EntityType.user
  | RawVal.num 1 => Except.ok EntityType.content
  | RawVal.num 2 => Except.ok EntityType.category
  | RawVal.num 3 => Except.ok EntityType.comment
  | RawVal.num 4 => Except.ok EntityType.file
  | RawVal.num 5 => Except.ok EntityType.commentAggregate
  | RawVal.num 6 => Except.ok EntityType.activity
  | RawVal.num 7 => Except.ok EntityType.activityAggregate
  | RawVal.num 8 => Except.ok EntityType.vote
  | RawVal.num 9 => Except.ok EntityType.watch
  | _ => Except.error ErrKind.decodeError

/-- Modelled from the spec: decode the `IView` fields. -/
def decodeViewFields (o : List (String × RawVal)) : Except ErrKind IView := do
  let id ← asInt (← getField o "id")
  let cd ← asInt (← getField o "createDate")
  Except.ok { id := id, createDate := cd }

/-- Modelled from the spec: decode the `IEntity` fields. -/
def decodeEntityFields (o : List (String × RawVal)) : Except ErrKind IEntity := do
  let v ← decodeViewFields o
  let ed ← asInt (← getField o "editDate")
  let cu ← asInt (← getField o "createUserId")
  let eu ← asInt (← getField o "editUserId")
  Except.ok { toIView := v, editDate := ed, createUserId := cu, editUserId := eu }

/-- Modelled from the spec: decode the `IControlledEntity` fields. -/
def decodeControlledFields (o : List (String × RawVal)) :
    Except ErrKind IControlledEntity := do
  let e ← decodeEntityFields o
  let pid ← asInt (← getField o "parentId")
  let perms ← decodePermissions (← getField o "permissions")
  let my ← asStr (← getField o "myPerms")
  Except.ok { toIEntity := e, parentId := pid, permissions := perms, myPerms := my }

/-- Modelled from the spec: decode the `INamedEntity` fields. -/
def decodeNamedFields (o : List (String × RawVal)) :
    Except ErrKind INamedEntity := do
  let c ← decodeControlledFields o
  let n ← asStr (← getField o "name")
  let vals ← decodeValues (← getField o "values")
  Except.ok { toIControlledEntity := c, name := n, values := vals }

/-- Modelled from the spec: decode a public `IUser` record. -/
def decodeUser (v : RawVal) : Except ErrKind IUser := do
  let o ← asObj v
  let w ← decodeViewFields o
  let un ← asStr (← getField o "username")
  let av ← asInt (← getField o "avatar")
  Except.ok { toIView := w, username := un, avatar := av }

/-- Modelled from the spec: decode an `ICategory` record. -/
def decodeCategory (v : RawVal) : Except ErrKind ICategory := do
  let o ← asObj v
  let n ← decodeNamedFields o
  let d ← asStr (← getField o "description")
  let ls ← decodeIdList (← getField o "localSupers")
  Except.ok { toINamedEntity := n, description := d, localSupers := ls }

/-- Modelled from the spec: decode the nullable current-user vote. -/
def decodeMyVote (v : RawVal) : Except ErrKind (Option Vote) :=
  match v with
  | RawVal.null => Except.ok none
  | w => do
    let x ← decodeVoteVal w
    Except.ok (some x)

/-- Modelled from the spec: decode the `about` block of a Content. -/
def decodeAbout (v : RawVal) : Except ErrKind IContentAbout := do
  let o ← asObj v
  let cs ← decodeAggregate (← getField o "comments")
  let ws ← decodeAggregate (← getField o "watches")
  let vo ← asObj (← getField o "votes")
  let vb ← decodeAggregate (← getField vo "bad")
  let vok ← decodeAggregate (← getField vo "okay")
  let vg ← decodeAggregate (← getField vo "great")
  let wat ← asBool (← getField o "watching")
  let mv ← decodeMyVote (← getField o "myVote")
  Except.ok
    { comments := cs
      watches := ws
      votes := fun x =>
        match x with
        | Vote.bad => vb
        | Vote.okay => vok
        | Vote.great => vg
      watching := wat
      myVote := mv }

/-- Modelled from the spec: decode an `IContent` record. -/
def decodeContent (v : RawVal) : Except ErrKind IContent := do
  let o ← asObj v
  let n ← decodeNamedFields o
  let body ← asStr (← getField o "content")
  let ty ← asStr (← getField o "type")
  let kw ← decodeStrList (← getField o "keywords")
  let ab ← decodeAbout (← getField o "about")
  Except.ok { toINamedEntity := n, content := body, type := ty, keywords := kw, about := ab }

/-- Modelled from the spec: decode an `IComment` record. -/
def decodeComment (v : RawVal) : Except ErrKind IComment := do
  let o ← asObj v
  let e ← decodeEntityFields o
  let pid ← asInt (← getField o "parentId")
  let body ← asStr (← getField o "content")
  let del ← asBool (← getField o "deleted")
  Except.ok { toIEntity := e, parentId := pid, content := body, deleted := del }

/-- Modelled from the spec: decode an `IFile` record. -/
def decodeFile (v : RawVal) : Except ErrKind IFile := do
  let o ← asObj v
  let c ← decodeControlledFields o
  let n ← asStr (← getField o "name")
  let ft ← asStr (← getField o "fileType")
  Except.ok { toIControlledEntity := c, name := n, fileType := ft }

/-- Modelled from the spec: decode an `ICommentAggregate` record. -/
def decodeCommentAggregate (v : RawVal) : Except ErrKind ICommentAggregate := do
  let o ← asObj v
  let a ← decodeAggregate v
  let id ← asInt (← getField o "id")
  let us ← decodeIdList (← getField o "userIds")
  Except.ok { toIAggregate := a, id := id, userIds := us }

/-- Modelled from the spec: decode an `IActivityAggregate` record. -/
def decodeActivityAggregate (v : RawVal) : Except ErrKind IActivityAggregate := do
  let o ← asObj v
  let ca ← decodeCommentAggregate v
  let li ← asInt (← getField o "lastId")
  Except.ok { toICommentAggregate := ca, lastId := li }

/-- Modelled from the spec: decode an `IEvent` record. -/
def decodeEvent (v : RawVal) : Except ErrKind IEvent := do
  let o ← asObj v
  let id ← asInt (← getField o "id")
  let d ← asInt (← getField o "date")
  let uid ← asInt (← getField o "userId")
  let cid ← asInt (← getField o "contentId")
  let ty ← decodeEntityType (← getField o "type")
  let cty ← asStr (← getField o "contentType")
  let act ← decodeCRUD (← getField o "action")
  let ex ← asStr (← getField o "extra")
  Except.ok
    { id := id, date := d, userId := uid, contentId := cid, type := ty,
      contentType := cty, action := act, extra := ex }

/-- Modelled from the spec: decode an `IVote` record; `vote` is optional
(field absence or null = no vote). -/
def decodeVote (v : RawVal) : Except ErrKind IVote := do
  let o ← asObj v
  let w ← decodeViewFields o
  let uid ← asInt (← getField o "userId")
  let cid ← asInt (← getField o "contentId")
  let vt ←
    match List.lookup "vote" o with
    | none => Except.ok none
    | some RawVal.null => Except.ok none
    | some x => do
      let y ← decodeVoteVal x
      Except.ok (some y)
  Except.ok { toIView := w, userId := uid, contentId := cid, vote := vt }

/-- Modelled from the spec: decode an `IWatch` record. -/
def decodeWatch (v : RawVal) : Except ErrKind IWatch := do
  let o ← asObj v
  let w ← decodeViewFields o
  let uid ← asInt (← getField o "userId")
  let cid ← asInt (← getField o "contentId")
  let ln ← asInt (← getField o "lastNotificationId")
  Except.ok { toIView := w, userId := uid, contentId := cid, lastNotificationId := ln }

/-- Modelled from the spec: decode a raw record as a given entity kind. -/
def decodeAs (k : EntityType) (v : RawVal) : Except ErrKind Item :=
  match k with
  | EntityType.user => (decodeUser v).map Item.user
  | EntityType.content => (decodeContent v).map Item.content
  | EntityType.category => (decodeCategory v).map Item.category
  | EntityType.comment => (decodeComment v).map Item.comment
  | EntityType.file => (decodeFile v).map Item.file
  | EntityType.commentAggregate => (decodeCommentAggregate v).map Item.commentAggregate
  | EntityType.activity => (decodeEvent v).map Item.activity
  | EntityType.activityAggregate => (decodeActivityAggregate v).map Item.activityAggregate
  | EntityType.vote => (decodeVote v).map Item.vote
  | EntityType.watch => (decodeWatch v).map Item.watch

/-- Modelled from the spec: decode a heterogeneous bundle kind by kind;
each kind's raw sequence is decoded record by record, independently of
every other kind (spec sections 7 and 9). -/
def decodeBundle (b : EntityType → List RawVal) (k : EntityType) :
    List (Except ErrKind Item) :=
  (b k).map (decodeAs k)

/-- Remove one raw record (the record at index `i` of kind `k`) from a
raw bundle. -/
def removeRecord (b : EntityType → List RawVal) (k : EntityType) (i : Nat) :
    EntityType → List RawVal :=
  fun t => if t = k then (b k).eraseIdx i else b t

/-- Whether every letter of a permission string is in {C, R, U, D}. -/
def permStringOk (s : String) : Bool :=
  s.toList.all fun c => ['C', 'R', 'U', 'D'].contains c

/-- Whether a permissions map uses only the documented alphabet. -/
def permsMapOk (perms : List (Int × String)) : Bool :=
  perms.all fun kv => permStringOk kv.2

/-- Modelled from the spec: contract checks of an `INamedEntity` — name
length 1-128 and permission alphabet (spec sections 3 and 4.1). -/
def namedEntityViolations (n : INamedEntity) : List ErrKind :=
  (if n.name.length < 1 || 128 < n.name.length then [ErrKind.contractViolation] else [])
    ++ (if permsMapOk n.permissions && permStringOk n.myPerms then []
        else [ErrKind.contractViolation])

/-- Modelled from the spec: the documented range checks a decoded record
must pass; violations are reported as `ContractViolation` without
touching the record itself (spec section 7). -/
def validateItem : Item → List ErrKind
  | Item.content c =>
    (if c.content.length < 2 || 65536 < c.content.length
     then [ErrKind.contractViolation] else [])
      ++ namedEntityViolations c.toINamedEntity
  | Item.comment c =>
    if c.content.length < 2 || 4096 < c.content.length
    then [ErrKind.contractViolation] else []
  | Item.category c => namedEntityViolations c.toINamedEntity
  | Item.file f =>
    (if f.name.length < 1 || 128 < f.name.length
     then [ErrKind.contractViolation] else [])
      ++ (if permsMapOk f.permissions && permStringOk f.myPerms then []
          else [ErrKind.contractViolation])
  | _ => []

/-- Whether a decoded record's fields violate one of the documented range
constraints (content body 2-65536, comment body 2-4096, name 1-128,
permission letters in {C, R, U, D}). -/
def violatesRanges : Item → Bool
  | Item.content c =>
    (c.content.length < 2 || 65536 < c.content.length)
      || (c.name.length < 1 || 128 < c.name.length)
      || !(permsMapOk c.permissions && permStringOk c.myPerms)
  | Item.comment c => c.content.length < 2 || 4096 < c.content.length
  | Item.category c =>
    (c.name.length < 1 || 128 < c.name.length)
      || !(permsMapOk c.permissions && permStringOk c.myPerms)
  | Item.file f =>
    (f.name.length < 1 || 128 < f.name.length)
      || !(permsMapOk f.permissions && permStringOk f.myPerms)
  | _ => false

/-- Modelled from the spec: strict decoding of one record — decode the
shape, then attach the contract-violation report; a violating record is
still produced, not truncated or dropped (spec section 7). -/
def decodeChecked (k : EntityType) (v : RawVal) :
    Except ErrKind (Item × List ErrKind) := do
  let item ← decodeAs k v
  Except.ok (item, validateItem item)

/-- Modelled from the spec: strict decoding of a whole batch of one kind;
each record is decoded and checked on its own. -/
def decodeCheckedBatch (k : EntityType) (l : List RawVal) :
    List (Except ErrKind (Item × List ErrKind)) :=
  l.map (decodeChecked k)

/-- The nine per-kind id sequences of a chained response bundle, in the
field order of the source type literal, with an empty list in the `watch`
position since the bundle has no Watch key. -/
def idLists (r : IChainedResponse) : List (List Int) :=
  [r.user.map (fun x => x.id),
   r.content.map (fun x => x.id),
   r.category.map (fun x => x.id),
   r.comment.map (fun x => x.id),
   r.file.map (fun x => x.id),
   r.commentAggregate.map (fun x => x.id),
   r.activity.map (fun x => x.id),
   r.activityAggregate.map (fun x => x.id),
   r.vote.map (fun x => x.id),
   []]

/-- Every id delivered in a chained response bundle, across all kinds. -/
def allIds (r : IChainedResponse) : List Int :=
  (idLists r).flatten

/-- Modelled from the spec: the shared-ID-space invariant of spec
section 3 — ids are globally unique across all entity kinds of a
bundle. -/
def sharedIdSpace (r : IChainedResponse) : Prop :=
  (allIds r).Nodup

instance (r : IChainedResponse) : Decidable (sharedIdSpace r) := by
  unfold sharedIdSpace; infer_instance

/-- The ids of the records a bundle delivers for one entity kind. -/
def kindIds (r : IChainedResponse) : EntityType → List Int
  | EntityType.user => r.user.map (fun x => x.id)
  | EntityType.content => r.content.map (fun x => x.id)
  | EntityType.category => r.category.map (fun x => x.id)
  | EntityType.comment => r.comment.map (fun x => x.id)
  | EntityType.file => r.file.map (fun x => x.id)
  | EntityType.commentAggregate => r.commentAggregate.map (fun x => x.id)
  | EntityType.activity => r.activity.map (fun x => x.id)
  | EntityType.activityAggregate => r.activityAggregate.map (fun x => x.id)
  | EntityType.vote => r.vote.map (fun x => x.id)
  | EntityType.watch => []

/-- The position of each entity kind inside `idLists`. -/
def kindPos : EntityType → Nat
  | EntityType.user => 0
  | EntityType.content => 1
  | EntityType.category => 2
  | EntityType.comment => 3
  | EntityType.file => 4
  | EntityType.commentAggregate => 5
  | EntityType.activity => 6
  | EntityType.activityAggregate => 7
  | EntityType.vote => 8
  | EntityType.watch => 9

/-- The inverse of `kindPos` on its range. -/
def kindOfPos : Nat → EntityType
  | 0 => EntityType.user
  | 1 => EntityType.content
  | 2 => EntityType.category
  | 3 => EntityType.comment
  | 4 => EntityType.file
  | 5 => EntityType.commentAggregate
  | 6 => EntityType.activity
  | 7 => EntityType.activityAggregate
  | 8 => EntityType.vote
  | _ => EntityType.watch

/-- The payload a full chained response bundle delivers for an entity
kind: one field per source key, and nothing for `watch`, which has no key
in the source type literal. -/
def IChainedResponse.payload (r : IChainedResponse) : EntityType → Option (List Item)
  | EntityType.user => some (r.user.map Item.user)
  | EntityType.content => some (r.content.map Item.content)
  | EntityType.category => some (r.category.map Item.category)
  | EntityType.comment => some (r.comment.map Item.comment)
  | EntityType.file => some (r.file.map Item.file)
  | EntityType.commentAggregate => some (r.commentAggregate.map Item.commentAggregate)
  | EntityType.activity => some (r.activity.map Item.activity)
  | EntityType.activityAggregate => some (r.activityAggregate.map Item.activityAggregate)
  | EntityType.vote => some (r.vote.map Item.vote)
  | EntityType.watch => none

/-- The payload a partial chained response (a listen response's `chains`
field) delivers for an entity kind; absent keys, and the keyless `watch`
kind, deliver nothing. -/
def ChainedResponseOpt.payload (r : ChainedResponseOpt) : EntityType → Option (List Item)
  | EntityType.user => r.user.map (fun l => l.map Item.user)
  | EntityType.content => r.content.map (fun l => l.map Item.content)
  | EntityType.category => r.category.map (fun l => l.map Item.category)
  | EntityType.comment => r.comment.map (fun l => l.map Item.comment)
  | EntityType.file => r.file.map (fun l => l.map Item.file)
  | EntityType.commentAggregate =>
    r.commentAggregate.map (fun l => l.map Item.commentAggregate)
  | EntityType.activity => r.activity.map (fun l => l.map Item.activity)
  | EntityType.activityAggregate =>
    r.activityAggregate.map (fun l => l.map Item.activityAggregate)
  | EntityType.vote => r.vote.map (fun l => l.map Item.vote)
  | EntityType.watch => none

/-- The public projection of a self-view: exactly the four `IUser`
fields (id, createDate, username, avatar). -/
def IUserSelf.toUser (s : IUserSelf) : IUser :=
  { id := s.id, createDate := s.createDate, username := s.username, avatar := s.avatar }

lemma effectivePermission_default_empty (uid : Int) :
    effectivePermission [(0, "")] uid = "" := by
  by_cases h0 : uid = 0
  · subst h0; rfl
  · have hb : (uid == 0) = false := by simpa using h0
    simp [effectivePermission, List.lookup, hb]

/-- C2: the effective permission string is the map's entry for the
requesting user's id when present; otherwise the entry for key 0 when
present; otherwise the empty string (no access). -/
theorem permission_fallback (perms : List (Int × String)) (uid : Int) :
    (∀ s, List.lookup uid perms = some s → effectivePermission perms uid = s) ∧
    (List.lookup uid perms = none →
      (∀ d, List.lookup 0 perms = some d → effectivePermission perms uid = d) ∧
      (List.lookup 0 perms = none → effectivePermission perms uid = "")) := by
  refine ⟨fun s hs => ?_, fun h => ⟨fun d hd => ?_, fun h0 => ?_⟩⟩
  · simp [effectivePermission, hs]
  · simp [effectivePermission, h, hd]
  · simp [effectivePermission, h, h0]

/-- Witness for C2 on the spec's three fallback examples. -/
theorem permission_fallback_witness :
    effectivePermission [(0, "R"), (5, "RU")] 5 = "RU" ∧
    effectivePermission [(0, "R"), (5, "RU")] 7 = "R" ∧
    effectivePermission [(5, "RU")] 7 = "" :=
  ⟨(permission_fallback [(0, "R"), (5, "RU")] 5).1 "RU" rfl,
   ((permission_fallback [(0, "R"), (5, "RU")] 7).2 rfl).1 "R" rfl,
   ((permission_fallback [(5, "RU")] 7).2 rfl).2 rfl⟩

/-- C1: a superuser is granted C, U, D unconditionally while effective R
follows the computed lookup/fallback string; with the map `{0: ""}` a
superuser is denied R but granted C, U and D. -/
theorem superuser_asymmetry (perms : List (Int × String)) (u : IUserSelf)
    (h : u.super = true) :
    hasPermission u perms 'C' = true ∧
    hasPermission u perms 'U' = true ∧
    hasPermission u perms 'D' = true ∧
    hasPermission u perms 'R' = permHas (effectivePermission perms u.id) 'R' ∧
    hasPermission u [(0, "")] 'R' = false ∧
    hasPermission u [(0, "")] 'C' = true ∧
    hasPermission u [(0, "")] 'U' = true ∧
    hasPermission u [(0, "")] 'D' = true := by
  refine ⟨?_, ?_, ?_, ?_, ?_, ?_, ?_, ?_⟩ <;>
    simp [hasPermission, h, effectivePermission_default_empty]
  decide

/-- Witness for C1: a concrete superuser against the map `{0: ""}`. -/
theorem superuser_asymmetry_witness :
    hasPermission
        { id := 7, createDate := 0, editDate := 0, createUserId := 7,
          editUserId := 7, username := "admin", avatar := 0, email := "",
          super := true } [(0, "")] 'R' = false ∧
    hasPermission
        { id := 7, createDate := 0, editDate := 0, createUserId := 7,
          editUserId := 7, username := "admin", avatar := 0, email := "",
          super := true } [(0, "")] 'C' = true := by
  have h := superuser_asymmetry [(0, "")]
    { id := 7, createDate := 0, editDate := 0, createUserId := 7,
      editUserId := 7, username := "admin", avatar := 0, email := "",
      super := true } rfl
  exact ⟨h.2.2.2.2.1, h.2.2.2.2.2.1⟩

lemma applyEvent_skip (a : IActivityAggregate) (e : IEvent)
    (h : e.id ≤ a.lastId) : applyEvent a e = a := by
  unfold applyEvent; simp [h]

lemma applyEvent_id_le (a : IActivityAggregate) (e : IEvent) :
    e.id ≤ (applyEvent a e).lastId := by
  unfold applyEvent; split
  · assumption
  · simp

lemma applyEvent_lastId_le (a : IActivityAggregate) (e : IEvent) :
    a.lastId ≤ (applyEvent a e).lastId := by
  unfold applyEvent; split
  · exact le_refl _
  · simp; omega

lemma applyEvents_lastId_le (es : List IEvent) (a : IActivityAggregate) :
    a.lastId ≤ (applyEvents a es).lastId := by
  induction es generalizing a with
  | nil => exact le_refl _
  | cons f t ih =>
    exact le_trans (applyEvent_lastId_le a f) (ih (applyEvent a f))

lemma mem_id_le_applyEvents (es : List IEvent) (a : IActivityAggregate) :
    ∀ e ∈ es, e.id ≤ (applyEvents a es).lastId := by
  induction es generalizing a with
  | nil => intro e he; simp at he
  | cons f t ih =>
    intro e he
    rcases List.mem_cons.1 he with rfl | ht
    · exact le_trans (applyEvent_id_le a e) (applyEvents_lastId_le t (applyEvent a e))
    · exact ih (applyEvent a f) e ht

lemma applyEvents_skip (es : List IEvent) (a : IActivityAggregate)
    (h : ∀ e ∈ es, e.id ≤ a.lastId) : applyEvents a es = a := by
  induction es with
  | nil => rfl
  | cons f t ih =>
    have hf : applyEvent a f = a := applyEvent_skip a f (h f (List.mem_cons_self f t))
    show applyEvents (applyEvent a f) t = a
    rw [hf]
    exact ih fun e he => h e (List.mem_cons_of_mem f he)

/-- C3: event application is idempotent by event id — folding any event
sequence into an activity aggregate twice yields the same aggregate as
folding it once, and re-applying a single event changes nothing. -/
theorem event_application_idempotent (a : IActivityAggregate)
    (es : List IEvent) (e : IEvent) :
    applyEvents (applyEvents a es) es = applyEvents a es ∧
    applyEvent (applyEvent a e) e = applyEvent a e := by
  constructor
  · exact applyEvents_skip es (applyEvents a es) (mem_id_le_applyEvents es a)
  · exact applyEvent_skip (applyEvent a e) e (applyEvent_id_le a e)

lemma foldl_max_init_le (es : List IEvent) (init : Int) :
    init ≤ es.foldl (fun m e => max m e.id) init := by
  induction es generalizing init with
  | nil => exact le_refl _
  | cons f t ih => exact le_trans (le_max_left _ _) (ih (max init f.id))

lemma respond_lastId_le (log : List IEvent) (q : IListenActionQuery) :
    q.lastId ≤ (respond log q).lastId :=
  foldl_max_init_le (listenEvents log q.lastId) q.lastId

lemma sessionSteps_all_ge (logs : List (List IEvent)) (q : IListenActionQuery) :
    ∀ p ∈ sessionSteps logs q, q.lastId ≤ p.2.lastId := by
  induction logs generalizing q with
  | nil => intro p hp; simp [sessionSteps] at hp
  | cons log rest ih =>
    intro p hp
    rcases List.mem_cons.1 hp with rfl | ht
    · exact respond_lastId_le log q
    · have h2 := ih { q with lastId := (respond log q).lastId } p ht
      exact le_trans (respond_lastId_le log q) h2

lemma respond_events_gt (log : List IEvent) (q : IListenActionQuery) :
    ∀ e ∈ (respond log q).events, q.lastId < e.id := by
  intro e he
  simp [respond, IListenChainResponse.events, listenEvents] at he
  exact he.2

lemma session_lastId_mono : ∀ (logs : List (List IEvent))
    (q : IListenActionQuery) (i j : Nat)
    (hi : i < (sessionSteps logs q).length)
    (hj : j < (sessionSteps logs q).length), i ≤ j →
    ((sessionSteps logs q).get ⟨i, hi⟩).2.lastId ≤
      ((sessionSteps logs q).get ⟨j, hj⟩).2.lastId := by
  intro logs
  induction logs with
  | nil => intro q i j hi hj hij; simp [sessionSteps] at hi
  | cons log rest ih =>
    intro q i j hi hj hij
    match i, j with
    | 0, 0 => exact le_refl _
    | 0, j + 1 =>
      have hj' : j < (sessionSteps rest { q with lastId := (respond log q).lastId }).length :=
        Nat.lt_of_succ_lt_succ hj
      have hmem := List.get_mem (sessionSteps rest { q with lastId := (respond log q).lastId })
        j hj'
      exact sessionSteps_all_ge rest { q with lastId := (respond log q).lastId } _ hmem
    | i + 1, j + 1 =>
      exact ih { q with lastId := (respond log q).lastId } i j
        (Nat.lt_of_succ_lt_succ hi) (Nat.lt_of_succ_lt_succ hj)
        (Nat.le_of_succ_le_succ hij)

lemma session_events_gt : ∀ (logs : List (List IEvent))
    (q : IListenActionQuery) (j : Nat)
    (hj : j < (sessionSteps logs q).length),
    ∀ e ∈ ((sessionSteps logs q).get ⟨j, hj⟩).2.events,
      ((sessionSteps logs q).get ⟨j, hj⟩).1 < e.id := by
  intro logs
  induction logs with
  | nil => intro q j hj; simp [sessionSteps] at hj
  | cons log rest ih =>
    intro q j hj
    match j with
    | 0 => exact respond_events_gt log q
    | j + 1 => exact ih { q with lastId := (respond log q).lastId } j (Nat.lt_of_succ_lt_succ hj)

/-- C4: in a properly resumed listen session the resume token is
monotonic across responses, and every event delivered at a step has id
strictly greater than the `lastId` supplied in the query that produced
that step. -/
theorem listen_resume_monotonic (logs : List (List IEvent))
    (q : IListenActionQuery) (i j : Nat)
    (hi : i < (sessionSteps logs q).length)
    (hj : j < (sessionSteps logs q).length) (hij : i ≤ j) :
    ((sessionSteps logs q).get ⟨i, hi⟩).2.lastId ≤
      ((sessionSteps logs q).get ⟨j, hj⟩).2.lastId ∧
    ∀ e ∈ ((sessionSteps logs q).get ⟨j, hj⟩).2.events,
      ((sessionSteps logs q).get ⟨j, hj⟩).1 < e.id :=
  ⟨session_lastId_mono logs q i j hi hj hij, session_events_gt logs q j hj⟩

/-- Witness for C4: a two-poll session resumed from 0 over a growing
log. -/
theorem listen_resume_monotonic_witness :
    ((sessionSteps
        [[{ id := 1, date := 10, userId := -1, contentId := 5,
            type := EntityType.content, contentType := "", action := CRUD.create,
            extra := "" }],
         [{ id := 1, date := 10, userId := -1, contentId := 5,
            type := EntityType.content, contentType := "", action := CRUD.create,
            extra := "" },
          { id := 2, date := 11, userId := 4, contentId := 5,
            type := EntityType.content, contentType := "", action := CRUD.update,
            extra := "" }]]
        { lastId := 0, statuses := [], chains := [] }).get ⟨0, by decide⟩).2.lastId ≤
      ((sessionSteps
        [[{ id := 1, date := 10, userId := -1, contentId := 5,
            type := EntityType.content, contentType := "", action := CRUD.create,
            extra := "" }],
         [{ id := 1, date := 10, userId := -1, contentId := 5,
            type := EntityType.content, contentType := "", action := CRUD.create,
            extra := "" },
          { id := 2, date := 11, userId := 4, contentId := 5,
            type := EntityType.content, contentType := "", action := CRUD.update,
            extra := "" }]]
        { lastId := 0, statuses := [], chains := [] }).get ⟨1, by decide⟩).2.lastId :=
  (listen_resume_monotonic _ _ 0 1 (by decide) (by decide) (by decide)).1

lemma decodeAggregate_encodeAggregate (a : IAggregate) :
    decodeAggregate (encodeAggregate a) = Except.ok a := by
  obtain ⟨fp, lp, c⟩ := a
  have hc : ¬((c : Int) < 0) := by omega
  cases fp <;> cases lp <;>
    simp [decodeAggregate, encodeAggregate, encodeOptDate, asObj, getField,
      List.lookup, asOptDate, asNat, hc, bind, Except.bind]

lemma aggWF_applyEvent (b : IActivityAggregate) (e : IEvent)
    (h : aggWF b.agg) : aggWF (applyEvent b e).agg := by
  unfold applyEvent
  split
  · exact h
  · unfold aggWF IActivityAggregate.agg at *
    cases hfp : b.firstPost <;>
      simp [hfp]

/-- C5: aggregates pair null timestamps exactly with a zero count — the
empty aggregate satisfies the pairing, event application preserves it,
and the decode/encode round trip returns the aggregate unchanged (so it
preserves the pairing as well). -/
theorem aggregate_null_invariant (a : IAggregate) (b : IActivityAggregate)
    (e : IEvent) :
    decodeAggregate (encodeAggregate a) = Except.ok a ∧
    aggWF emptyAggregate ∧
    (aggWF b.agg → aggWF (applyEvent b e).agg) := by
  refine ⟨decodeAggregate_encodeAggregate a, ?_, aggWF_applyEvent b e⟩
  constructor <;> simp [emptyAggregate]

/-- Witness for C5: a concrete aggregate round trip and a concrete
preserved application. -/
theorem aggregate_null_invariant_witness :
    decodeAggregate (encodeAggregate { firstPost := none, lastPost := none, count := 0 }) =
      Except.ok { firstPost := none, lastPost := none, count := 0 } ∧
    aggWF
      (applyEvent
        { firstPost := none, lastPost := none, count := 0, id := 5, userIds := [],
          lastId := 0 }
        { id := 1, date := 10, userId := 4, contentId := 5,
          type := EntityType.content, contentType := "", action := CRUD.create,
          extra := "" }).agg := by
  have h := aggregate_null_invariant
    { firstPost := none, lastPost := none, count := 0 }
    { firstPost := none, lastPost := none, count := 0, id := 5, userIds := [],
      lastId := 0 }
    { id := 1, date := 10, userId := 4, contentId := 5,
      type := EntityType.content, contentType := "", action := CRUD.create,
      extra := "" }
  exact ⟨h.1, h.2.2 (by decide)⟩

lemma idLists_length (r : IChainedResponse) : (idLists r).length = 10 := rfl

lemma kindPos_lt (r : IChainedResponse) (k : EntityType) :
    kindPos k < (idLists r).length := by
  cases k <;> simp [kindPos, idLists]

lemma kindIds_eq_get (r : IChainedResponse) (k : EntityType) :
    kindIds r k = (idLists r).get ⟨kindPos k, kindPos_lt r k⟩ := by
  cases k <;> rfl

lemma kindOfPos_kindPos (k : EntityType) : kindOfPos (kindPos k) = k := by
  cases k <;> rfl

lemma kindPos_injective {k k' : EntityType} (h : kindPos k = kindPos k') :
    k = k' := by
  have := congrArg kindOfPos h
  rwa [kindOfPos_kindPos, kindOfPos_kindPos] at this

lemma kindIds_mem_idLists (r : IChainedResponse) (k : EntityType) :
    kindIds r k ∈ idLists r := by
  rw [kindIds_eq_get]
  exact List.get_mem _ _ _

/-- C6: in a bundle satisfying the shared-ID-space invariant, the ids
delivered for each kind are pairwise distinct, and no two records of
different kinds carry the same id. -/
theorem shared_id_space (r : IChainedResponse) (h : sharedIdSpace r) :
    (∀ k, (kindIds r k).Nodup) ∧
    (∀ k k', k ≠ k' → ∀ x, x ∈ kindIds r k → x ∉ kindIds r k') := by
  have hj := List.nodup_flatten.1 h
  constructor
  · intro k
    exact hj.1 _ (kindIds_mem_idLists r k)
  · intro k k' hkk x hx hx'
    have hp : kindPos k ≠ kindPos k' := fun hEq => hkk (kindPos_injective hEq)
    have hpw := hj.2
    rw [List.pairwise_iff_getElem] at hpw
    rw [kindIds_eq_get] at hx hx'
    rcases Nat.lt_or_ge (kindPos k) (kindPos k') with hlt | hge
    · have hd := hpw (kindPos k) (kindPos k') (kindPos_lt r k) (kindPos_lt r k') hlt
      rw [List.get_eq_getElem] at hx hx'
      exact hd hx hx'
    · have hlt' : kindPos k' < kindPos k := by omega
      have hd := hpw (kindPos k') (kindPos k) (kindPos_lt r k') (kindPos_lt r k) hlt'
      rw [List.get_eq_getElem] at hx hx'
      exact hd hx' hx

/-- Witness for C6: a concrete two-kind bundle with distinct ids. -/
theorem shared_id_space_witness :
    (1 : Int) ∉ kindIds
      { user := [{ id := 1, createDate := 0, username := "a", avatar := 0 }],
        content := [], category := [],
        comment := [{ id := 2, createDate := 0, editDate := 0, createUserId := 1,
                      editUserId := 1, parentId := 3, content := "hi",
                      deleted := false }],
        file := [], commentAggregate := [], activity := [],
        activityAggregate := [], vote := [] }
      EntityType.comment :=
  (shared_id_space
    { user := [{ id := 1, createDate := 0, username := "a", avatar := 0 }],
      content := [], category := [],
      comment := [{ id := 2, createDate := 0, editDate := 0, createUserId := 1,
                    editUserId := 1, parentId := 3, content := "hi",
                    deleted := false }],
      file := [], commentAggregate := [], activity := [],
      activityAggregate := [], vote := [] }
    (by decide)).2 EntityType.user EntityType.comment (by decide) 1 (by decide)

lemma decodeCheckedBatch_length (k : EntityType) (l : List RawVal) :
    (decodeCheckedBatch k l).length = l.length := by
  simp [decodeCheckedBatch]

/-- C7: a record decoding to a shape that violates a documented range
constraint is reported with a `ContractViolation`, yet the strict batch
decode still produces the record verbatim at its position and keeps the
batch's length. -/
theorem contract_violation_preserves_record (k : EntityType) (l : List RawVal)
    (i : Nat) (hi : i < l.length) (item : Item)
    (hdec : decodeAs k (l.get ⟨i, hi⟩) = Except.ok item)
    (hviol : violatesRanges item = true) :
    (decodeCheckedBatch k l).length = l.length ∧
    (decodeCheckedBatch k l).get ⟨i, (decodeCheckedBatch_length k l).symm ▸ hi⟩ =
      Except.ok (item, validateItem item) ∧
    ErrKind.contractViolation ∈ validateItem item := by
  refine ⟨decodeCheckedBatch_length k l, ?_, ?_⟩
  · have hmap : (decodeCheckedBatch k l).get
        ⟨i, (decodeCheckedBatch_length k l).symm ▸ hi⟩ =
        decodeChecked k (l.get ⟨i, hi⟩) := by
      simp [decodeCheckedBatch, List.get_eq_getElem, List.getElem_map]
    rw [hmap]
    rw [List.get_eq_getElem] at hdec
    simp [decodeChecked, hdec, bind, Except.bind]
  · cases item <;> simp [violatesRanges] at hviol <;>
      (simp only [validateItem, namedEntityViolations]; split_ifs <;> simp_all <;> omega)

/-- Witness for C7: a single-record comment batch whose body has one
character. -/
theorem contract_violation_preserves_record_witness :
    (decodeCheckedBatch EntityType.comment
      [RawVal.obj
        [("id", RawVal.num 1), ("createDate", RawVal.num 0),
         ("editDate", RawVal.num 0), ("createUserId", RawVal.num 1),
         ("editUserId", RawVal.num 1), ("parentId", RawVal.num 2),
         ("content", RawVal.str "x"), ("deleted", RawVal.boolVal false)]]).length = 1 ∧
    ErrKind.contractViolation ∈ validateItem
      (Item.comment
        { id := 1, createDate := 0, editDate := 0, createUserId := 1,
          editUserId := 1, parentId := 2, content := "x", deleted := false }) := by
  have h := contract_violation_preserves_record EntityType.comment
    [RawVal.obj
      [("id", RawVal.num 1), ("createDate", RawVal.num 0),
       ("editDate", RawVal.num 0), ("createUserId", RawVal.num 1),
       ("editUserId", RawVal.num 1), ("parentId", RawVal.num 2),
       ("content", RawVal.str "x"), ("deleted", RawVal.boolVal false)]]
    0 (by decide)
    (Item.comment
      { id := 1, createDate := 0, editDate := 0, createUserId := 1,
        editUserId := 1, parentId := 2, content := "x", deleted := false })
    (by rfl) (by decide)
  exact ⟨h.1, h.2.2⟩

lemma decodeBundle_length (b : EntityType → List RawVal) (k : EntityType) :
    (decodeBundle b k).length = (b k).length := by
  simp [decodeBundle]

/-- C8: decoding a heterogeneous bundle isolates failures per kind —
removing any record of one kind leaves every other kind's decode
untouched, and each kind's records are decoded one by one in place. -/
theorem bundle_decode_isolation (b : EntityType → List RawVal) (k : EntityType)
    (i : Nat) (k' : EntityType) (h : k' ≠ k) :
    decodeBundle (removeRecord b k i) k' = decodeBundle b k' ∧
    (decodeBundle b k').length = (b k').length ∧
    ∀ j (hj : j < (b k').length),
      (decodeBundle b k').get ⟨j, (decodeBundle_length b k').symm ▸ hj⟩ =
        decodeAs k' ((b k').get ⟨j, hj⟩) := by
  refine ⟨?_, decodeBundle_length b k', ?_⟩
  · simp [decodeBundle, removeRecord, h]
  · intro j hj
    simp [decodeBundle, List.get_eq_getElem, List.getElem_map]

/-- Witness for C8: a bundle with one malformed User record does not
change how the Comment kind decodes. -/
theorem bundle_decode_isolation_witness :
    decodeBundle
        (removeRecord
          (fun t =>
            match t with
            | EntityType.user => [RawVal.num 3]
            | EntityType.comment =>
              [RawVal.obj
                [("id", RawVal.num 1), ("createDate", RawVal.num 0),
                 ("editDate", RawVal.num 0), ("createUserId", RawVal.num 1),
                 ("editUserId", RawVal.num 1), ("parentId", RawVal.num 2),
                 ("content", RawVal.str "ok"), ("deleted", RawVal.boolVal false)]]
            | _ => [])
          EntityType.user 0)
        EntityType.comment =
      decodeBundle
        (fun t =>
          match t with
          | EntityType.user => [RawVal.num 3]
          | EntityType.comment =>
            [RawVal.obj
              [("id", RawVal.num 1), ("createDate", RawVal.num 0),
               ("editDate", RawVal.num 0), ("createUserId", RawVal.num 1),
               ("editUserId", RawVal.num 1), ("parentId", RawVal.num 2),
               ("content", RawVal.str "ok"), ("deleted", RawVal.boolVal false)]]
          | _ => [])
        EntityType.comment :=
  (bundle_decode_isolation
    (fun t =>
      match t with
      | EntityType.user => [RawVal.num 3]
      | EntityType.comment =>
        [RawVal.obj
          [("id", RawVal.num 1), ("createDate", RawVal.num 0),
           ("editDate", RawVal.num 0), ("createUserId", RawVal.num 1),
           ("editUserId", RawVal.num 1), ("parentId", RawVal.num 2),
           ("content", RawVal.str "ok"), ("deleted", RawVal.boolVal false)]]
      | _ => [])
    EntityType.user 0 EntityType.comment (by decide)).1

/-- C9: both the full and the partial heterogeneous payload deliver
records for exactly the nine keyed kinds — never for Watch — and every
delivered record's kind matches its key. -/
theorem chained_kinds_exclude_watch :
    (∀ (r : IChainedResponse) (k : EntityType),
        (IChainedResponse.payload r k).isSome ↔ k ≠ EntityType.watch) ∧
    (∀ (p : ChainedResponseOpt) (k : EntityType) (xs : List Item),
        ChainedResponseOpt.payload p k = some xs → k ≠ EntityType.watch) ∧
    (∀ (r : IChainedResponse) (k : EntityType) (xs : List Item),
        IChainedResponse.payload r k = some xs → ∀ x ∈ xs, Item.kind x = k) := by
  refine ⟨?_, ?_, ?_⟩
  · intro r k; cases k <;> simp [IChainedResponse.payload]
  · intro p k xs hx
    cases k <;> simp_all [ChainedResponseOpt.payload]
  · intro r k xs hx x hxs
    cases k <;> simp only [IChainedResponse.payload, Option.some.injEq,
      reduceCtorEq] at hx <;>
      first
      | exact absurd hx (by simp)
      | (subst hx; rw [List.mem_map] at hxs; obtain ⟨y, hy, rfl⟩ := hxs; rfl)

/-- Witness for C9: the comment kind of a partial payload is keyed, so it
is not Watch. -/
theorem chained_kinds_exclude_watch_witness :
    EntityType.comment ≠ EntityType.watch :=
  chained_kinds_exclude_watch.2.1 { comment := some ([] : List IComment) }
    EntityType.comment [] rfl

/-- C10: the public `IUser` view consists of exactly id, createDate,
username and avatar — two users agreeing on those four fields are equal —
and the public projection of a self-view is unchanged by its email,
edit-tracking and superuser fields, so the super flag of another user is
never observable from a decoded `IUser`. -/
theorem public_user_view_minimal :
    (∀ u1 u2 : IUser, u1.id = u2.id → u1.createDate = u2.createDate →
        u1.username = u2.username → u1.avatar = u2.avatar → u1 = u2) ∧
    (∀ (s : IUserSelf) (em : String) (ed cu eu : Int) (b : Bool),
        IUserSelf.toUser
          { s with email := em, editDate := ed, createUserId := cu,
                   editUserId := eu, super := b } = IUserSelf.toUser s) := by
  constructor
  · intro u1 u2 h1 h2 h3 h4
    obtain ⟨⟨⟨i1⟩, c1⟩, n1, a1⟩ := u1
    obtain ⟨⟨⟨i2⟩, c2⟩, n2, a2⟩ := u2
    simp_all
  · intro s em ed cu eu b
    rfl

/-- Witness for C10: the projection of a concrete self-view ignores a
flipped super flag. -/
theorem public_user_view_minimal_witness :
    IUserSelf.toUser
        { id := 7, createDate := 0, editDate := 9, createUserId := 7,
          editUserId := 7, username := "admin", avatar := 3, email := "hid",
          super := true } =
      { id := 7, createDate := 0, username := "admin", avatar := 3 } :=
  public_user_view_minimal.1
    (IUserSelf.toUser
      { id := 7, createDate := 0, editDate := 9, createUserId := 7,
        editUserId := 7, username := "admin", avatar := 3, email := "hid",
        super := true })
    { id := 7, createDate := 0, username := "admin", avatar := 3 }
    rfl rfl rfl rfl
